import Mathlib

/-!
Verification of the network-labs file-transfer service.

This file is a shallow embedding of the Python sources:
  - `udpProtocol.py` (blast-and-repair ARQ with bitmap ACKs),
  - `udbProtocol.py` (Go-Back-N ARQ with cumulative ACKs and a FIN handshake),
  - `protocol.py`   (transport framing and the prefix checksum),
  - `server.py`     (threaded and event-loop servers),
  - `client.py`     (interactive client).

Bytes are modelled as `Nat`, byte blobs as `List Nat`, Python strings as
Lean `String` manipulated through small helpers that mirror Python's
`str.split(' ')`, `str.upper()`, `' '.join`, slicing and `int()`.  The MD5
digest used by `protocol.calculate_checksum` is treated as an opaque
parameter `digest : List Nat → String`; only equality of digests matters
to the negotiation logic.  Sockets are replaced by explicit traces: a
receiver consumes a list of datagrams, a sender consumes the list of
acknowledgment packets observed in each round of its loop.
-/

/-! ### Python string primitives -/

/-- Python `s.split(' ')` on the character list of a string: split at every
single space, keeping empty fields (so `"".split(' ') = [""]`). -/
def splitSp : List Char → List Char → List (List Char)
  | acc, [] => [acc.reverse]
  | acc, c :: rest => if c = ' ' then acc.reverse :: splitSp [] rest else splitSp (c :: acc) rest

/-- Python `s.split(' ')`. -/
def pySplitSpace (s : String) : List String :=
  (splitSp [] s.data).map (fun cs => String.mk cs)

/-- Python `sep.join(parts)` at the character level. -/
def joinSep (sep : List Char) : List (List Char) → List Char
  | [] => []
  | [x] => x
  | x :: xs => x ++ sep ++ joinSep sep xs

/-- Python `sep.join(parts)`. -/
def pyJoin (sep : String) (l : List String) : String :=
  String.mk (joinSep sep.data (l.map String.data))

/-- Python `s.upper()` (ASCII, as used by the command dispatchers). -/
def pyUpper (s : String) : String := String.mk (s.data.map Char.toUpper)

/-- One digit of Python `int()`. -/
def charDigit (c : Char) : Option Nat :=
  if '0' ≤ c ∧ c ≤ '9' then some (c.toNat - 48) else none

/-- Accumulate decimal digits; fails on the first non-digit. -/
def digitsValGo : List Char → Nat → Option Nat
  | [], acc => some acc
  | c :: rest, acc =>
    match charDigit c with
    | some d => digitsValGo rest (acc * 10 + d)
    | none => none

/-- Python `int(s)` for plain decimal literals with an optional minus sign;
`none` models the `ValueError` exception. -/
def pyInt (s : String) : Option Int :=
  match s.data with
  | [] => none
  | '-' :: rest => if rest = [] then none else (digitsValGo rest 0).map (fun n => -(n : Int))
  | l => (digitsValGo l 0).map (fun n => (n : Int))

/-- Python `s.startswith(pre)`. -/
def pyStartsWith (pre s : String) : Bool := pre.data.isPrefixOf s.data

/-! ### Fixed-size chunking

`udpProtocol.sendReliable` and `udbProtocol.sendReliable` slice the payload
with `[data[i:i+PAYLOAD_SIZE] for i in range(0, len(data), PAYLOAD_SIZE)]`,
and the file-streaming loops read `DISK_CHUNK`-byte blocks until EOF.  Both
are the same chunking operation, written here with an explicit fuel equal to
the list length so that it computes by `rfl`/`decide`. -/

def chunksOfGo (n : Nat) : Nat → List Nat → List (List Nat)
  | 0, _ => []
  | _ + 1, [] => []
  | fuel + 1, a :: rest => ((a :: rest).take n) :: chunksOfGo n fuel ((a :: rest).drop n)

/-- Slice `l` into consecutive blocks of `n` bytes (the final block may be
shorter); the empty list yields no blocks, exactly like Python's slicing
comprehension. -/
def chunksOf (n : Nat) (l : List Nat) : List (List Nat) := chunksOfGo n l.length l

/-! ### Reliable datagram transport, bitmap variant (`udpProtocol.py`)

Wire packets carry a sequence number and a one-byte type tag
(`D` = data, `F` = fin, `A` = ack with a bitmap payload).  `sendReliable`
replaces an empty payload with `b' '` (byte 32), slices the payload into
`PAYLOAD_SIZE`-byte segments numbered from 0, and repeatedly blasts the
unacknowledged segments followed by an `F` packet carrying the total
segment count.  `recvReliable` stores `D` payloads in a dict keyed by
sequence number (duplicates overwrite) and, on an `F` packet, returns the
in-order concatenation as soon as the dict holds `total` entries. -/

def PAYLOAD_SIZE : Nat := 1400

/-- A datagram as parsed by both ends (sequence number, type, payload). -/
inductive UPacket where
  | dat (seq : Nat) (payload : List Nat)
  | fin (total : Nat)
  | ack (seq : Nat) (bitmap : List Nat)
deriving DecidableEq

/-- Line `if not data: data = b' '` of `sendReliable`: the payload actually
transmitted for a blob. -/
def sendPayload (data : List Nat) : List Nat := if data = [] then [32] else data

/-- The `PAYLOAD_SIZE`-byte segments `sendReliable` numbers 0..N-1. -/
def senderSegments (data : List Nat) : List (List Nat) :=
  chunksOf PAYLOAD_SIZE (sendPayload data)

/-- The datagrams `sendReliable` can ever emit for `data`: the numbered data
segments, and the `F` marker carrying the total segment count. -/
def isSenderPacket (data : List Nat) : UPacket → Bool
  | .dat seq payload => decide ((senderSegments data).get? seq = some payload)
  | .fin total => decide (total = (senderSegments data).length)
  | .ack _ _ => false

/-- Assignment `resultDict[seq] = payload` on a Python dict, as an association list with
distinct keys: replace the existing entry or append a new one. -/
def dictInsert : List (Nat × List Nat) → Nat → List Nat → List (Nat × List Nat)
  | [], k, v => [(k, v)]
  | (k', v') :: rest, k, v =>
    if k' = k then (k, v) :: rest else (k', v') :: dictInsert rest k v

/-- Python dict lookup on the association list. -/
def dictLookup : List (Nat × List Nat) → Nat → Option (List Nat)
  | [], _ => none
  | (k', v') :: rest, k => if k' = k then some v' else dictLookup rest k

/-- Reassembly `b''.join(resultDict[i] for i in range(totalExpected))`; `none` models the
`KeyError` raised when a sequence number is missing. -/
def assembleResult (d : List (Nat × List Nat)) (total : Nat) : Option (List Nat) :=
  ((List.range total).mapM (dictLookup d)).map List.flatten

/-- The `recvReliable` loop over the trace of datagrams it reads, paired with
their source addresses.  `D` packets update the dict, an `F` packet returns
the assembled blob and the packet's source address once the dict is full,
`A` packets fall through the type dispatch, and an exhausted trace models
the 5-second idle timeout (`ConnectionResetError`). -/
def recvReliableLoop : List (Nat × UPacket) → List (Nat × List Nat) → Option (List Nat × Nat)
  | [], _ => none
  | (_, UPacket.dat seq payload) :: rest, d => recvReliableLoop rest (dictInsert d seq payload)
  | (a, UPacket.fin total) :: rest, d =>
    if d.length = total then (assembleResult d total).map (fun b => (b, a))
    else recvReliableLoop rest d
  | (_, UPacket.ack _ _) :: rest, d => recvReliableLoop rest d

/-! ### Termination model of the two send loops (`udpProtocol.py`, `udbProtocol.py`)

One round of `udpProtocol.sendReliable`'s `while unacked:` loop resends the
missing segments, pings for a bitmap, and removes every sequence number whose
bit is set in any received `A` bitmap.  One round of `udbProtocol.sendReliable`'s
`while base < total:` loop fills the window and advances `base` past every
cumulative ACK `>= base`.  The models track exactly the state each loop's
guard inspects, with the acknowledgment packets observed in each round
supplied as a list (one entry per round). -/

/-- Test `bitmap[byteIdx] & (1 << bitIdx)` with out-of-range bytes reading as 0. -/
def bitSet (bitmap : List Nat) (s : Nat) : Bool :=
  match bitmap.get? (s / 8) with
  | some b => b.testBit (s % 8)
  | none => false

/-- Remove from `unacked` every sequence number acknowledged by one bitmap. -/
def applyBitmapAck (unacked : List Nat) (bitmap : List Nat) : List Nat :=
  unacked.filter (fun s => !(bitSet bitmap s))

/-- All bitmap ACKs read in one round of the blast loop, applied in order. -/
def blastRound (unacked : List Nat) (acks : List (List Nat)) : List Nat :=
  acks.foldl applyBitmapAck unacked

/-- The `while unacked:` loop of `udpProtocol.sendReliable`, observed for `fuel`
rounds: `true` means the loop exited (all segments acknowledged), `false`
means it was still running after `fuel` rounds. -/
def runSendBitmap : Nat → List Nat → List (List (List Nat)) → Bool
  | _, [], _ => true
  | 0, _ :: _, _ => false
  | fuel + 1, s :: rest, ackRounds =>
    runSendBitmap fuel (blastRound (s :: rest) (ackRounds.headD [])) ackRounds.tail

/-- Model of `udbProtocol.processAcks`: drain the ACK packets `(seq, type)` available
this round (type 65 is `A`) and slide `base` past each cumulative ACK. -/
def processAcksM (base : Nat) (acks : List (Nat × Nat)) : Nat :=
  acks.foldl (fun b a => if a.2 = 65 ∧ a.1 ≥ b then a.1 + 1 else b) base

/-- The `while base < total:` loop of `udbProtocol.sendReliable`, observed for
`fuel` rounds; `false` means it was still running after `fuel` rounds. -/
def runSendGbn : Nat → Nat → Nat → List (List (Nat × Nat)) → Bool
  | 0, base, total, _ => decide (total ≤ base)
  | fuel + 1, base, total, ackRounds =>
    if total ≤ base then true
    else runSendGbn fuel (processAcksM base (ackRounds.headD [])) total ackRounds.tail

/-! ### The FIN handshake (`udbProtocol.sendFin`)

`sendFin` sends the `F` packet up to 10 times; each attempt waits `TIMEOUT`
for one reply and returns early when an `A` packet for `total` arrives.
Falling out of the loop returns `None` exactly like the early return, so the
result is wrapped in `Except` to make the absence of any failure path
explicit: every outcome is `Except.ok`, with the payload recording whether an
acknowledgment was seen. -/

/-- The reply observed during one attempt, if any: `(seq, type)` with type 65
for `A`; `none` covers the timeout and too-short-packet cases. -/
def isGoodFinAck (resp : Option (Nat × Nat)) (total : Nat) : Bool :=
  match resp with
  | some (ackSeq, pType) => pType = 65 && ackSeq = total
  | none => false

/-- The retry loop of `sendFin` over the per-attempt replies. -/
def sendFinLoop : List (Option (Nat × Nat)) → Nat → Bool
  | [], _ => false
  | r :: rest, total => if isGoodFinAck r total then true else sendFinLoop rest total

/-- Model of `udbProtocol.sendFin` with its `for _ in range(10)` budget; the result is
always `Except.ok` because the function raises nothing, and the Boolean
records whether the FIN was acknowledged within the budget. -/
def sendFinM (responses : List (Option (Nat × Nat))) (total : Nat) : Except String Bool :=
  Except.ok (sendFinLoop (responses.take 10) total)

/-! ### `protocol.calculate_checksum`

`calculate_checksum(filepath, length)` returns `"0"` when `length == 0` or
the file does not exist, and otherwise the MD5 hex digest of the first
`length` bytes (reading stops early at EOF, so a short file digests all of
its bytes — `List.take` beyond the end behaves identically).  MD5 itself is
opaque to every claim, so it is a parameter `digest`. -/

def calcChecksum (digest : List Nat → String) (file : Option (List Nat)) (length : Nat) : String :=
  match file with
  | none => "0"
  | some bytes => if length = 0 then "0" else digest (bytes.take length)

/-- Constant `protocol.DISK_CHUNK`. -/
def DISK_CHUNK : Nat := 65536

/-! ### Threaded server (`server.py`, Lab 4)

One command is processed per `processCommandBlocking` call.  The model keeps
the filesystem abstract: `stored` is the content of the file the command
names (after the `os.path.basename` reduction), `none` when it does not
exist; `files` is the storage-directory listing; `now` the formatted clock.
Replies are the newline-terminated lines `transport.sendMessage` would emit
(without the newline).  An uncaught Python exception is `CmdOutcome.exn`; in
`threadedClientHandler` it is caught by the per-client wrapper, which logs
and closes the connection, ending that session. -/

/-- Result of processing one command in the threaded server. -/
inductive CmdOutcome where
  | replies (msgs : List String)
  | exn (msg : String)
deriving DecidableEq

/-- Fate of the session in `threadedClientHandler`: an exception ends the session (the socket is
closed in the `finally` block); a normal outcome loops for the next line. -/
def threadedSessionAfter : CmdOutcome → Bool
  | .replies _ => true
  | .exn _ => false

/-- Outcome of the negotiation-opening part of `handleUploadBlocking`
(everything up to the `OFFSET` reply): `silentReturn` is the bare `return`
on missing arguments, `valueError` the exception from `int(parts[2])`, and
the other two record the reply sent and the file content afterwards. -/
inductive UploadInitResult where
  | silentReturn
  | valueError
  | reject (reply : String) (fileAfter : Option (List Nat))
  | offer (reply : String) (fileAfter : Option (List Nat)) (remaining : Int)
deriving DecidableEq

/-- Model of `handleUploadBlocking` up to the `OFFSET` reply: argument check, size
parse, the `currentSize >= totalSize and totalSize > 0` collision rejection,
and otherwise the `OFFSET <cur> <checksum>` offer. -/
def handleUploadBlockingM (digest : List Nat → String) (stored : Option (List Nat))
    (parts : List String) : UploadInitResult :=
  if parts.length < 3 then .silentReturn
  else
    match pyInt (parts.getD 2 "") with
    | none => .valueError
    | some totalSize =>
      let currentSize : Int := ((stored.getD []).length : Int)
      if currentSize ≥ totalSize ∧ totalSize > 0 then
        .reject "ERROR: File completely exists on server. Upload blocked." stored
      else
        .offer ("OFFSET " ++ toString currentSize ++ " " ++
            calcChecksum digest stored (stored.getD []).length) stored (totalSize - currentSize)

/-- How the upload-opening result surfaces in `processCommandBlocking`. -/
def uploadOutcome : UploadInitResult → CmdOutcome
  | .silentReturn => .replies []
  | .valueError => .exn "ValueError"
  | .reject msg _ => .replies [msg]
  | .offer msg _ _ => .replies [msg]

/-- Model of `handleDownloadBlocking` up to the `SIZE` reply: argument check, the
`ERROR: File not found` case, and the size announcement. -/
def handleDownloadBlockingM (stored : Option (List Nat)) (parts : List String) : CmdOutcome :=
  if parts.length < 2 then .replies []
  else
    match stored with
    | none => .replies ["ERROR: File not found"]
    | some bytes => .replies ["SIZE " ++ toString bytes.length]

/-- Model of `processCommandBlocking`: split on spaces, uppercase the first token, and
dispatch.  `ECHO` answers `' '.join(parts[1:])`, `LIST` answers the joined
listing or `No files` when the join is empty (Python's `or`), unknown
keywords answer `ERROR: Unknown command`. -/
def processCommandBlockingM (digest : List Nat → String) (now : String) (files : List String)
    (stored : Option (List Nat)) (cmdLine : String) : CmdOutcome :=
  let parts := pySplitSpace cmdLine
  let cmd := pyUpper (parts.getD 0 "")
  if cmd = "ECHO" then .replies [pyJoin " " parts.tail]
  else if cmd = "TIME" then .replies [now]
  else if cmd = "LIST" then
    .replies [if pyJoin ", " files = "" then "No files" else pyJoin ", " files]
  else if cmd = "CLOSE" then .replies ["BYE"]
  else if cmd = "DOWNLOAD" then handleDownloadBlockingM stored parts
  else if cmd = "UPLOAD" then uploadOutcome (handleUploadBlockingM digest stored parts)
  else .replies ["ERROR: Unknown command"]

/-- What `handleUploadBlocking` does with the client's post-`OFFSET` decision
line: only `"ABORT"` returns to the command loop; every other line — the
code checks nothing else — falls through to
`receiveFileStream(transport, filepath, totalSize - currentSize)`. -/
inductive UploadDecisionAction where
  | returnIdle
  | receiveStream (remaining : Int)
deriving DecidableEq

/-- Lines 115-118 of `server.py`. -/
def serverUploadDecisionStep (decision : String) (totalSize currentSize : Int) :
    UploadDecisionAction :=
  if decision = "ABORT" then .returnIdle else .receiveStream (totalSize - currentSize)

/-- Lines 181-193 of `client.py` (`performUpload`): the decision message the
client sends after comparing its own prefix checksum against the server's,
together with the offset it will stream from. -/
def clientUploadDecision (offset : Nat) (localChecksum serverChecksum : String) :
    String × Nat :=
  if 0 < offset ∧ localChecksum ≠ serverChecksum then ("RESTART", 0) else ("OK", offset)

/-- Lines 150-158 of `server.py` (`handleDownloadBlocking`): the reply to the
client's `OFFSET <cur> <checksum>` line.  A positive offset whose recomputed
prefix checksum disagrees with the client's is answered `ABORT` (and the
handler returns); otherwise the server replies `OK` and streams. -/
def serverDownloadOffsetReply (digest : List Nat → String) (fileBytes : List Nat)
    (offsetI : Int) (clientChecksum : String) : String :=
  if 0 < offsetI ∧ calcChecksum digest (some fileBytes) offsetI.toNat ≠ clientChecksum then
    "ABORT"
  else "OK"

/-- Lines 256-264 of `client.py` (`performDownload`): how the client reacts to
the server's negotiation reply. -/
inductive ClientDownloadAction where
  | restartResend
  | negotiationFailed (msg : String)
  | proceed
deriving DecidableEq

/-- Only `"RESTART"` triggers the discard-and-resend path; any other
non-`"OK"` reply makes the client print a negotiation failure and return. -/
def clientDownloadDecision (decision : String) : ClientDownloadAction :=
  if decision = "RESTART" then .restartResend
  else if decision ≠ "OK" then .negotiationFailed decision
  else .proceed

/-- The `while remaining > 0` receive loop shared by `receiveFileStream`
(server) and `performDownload` (client): append each raw chunk delivered by
the transport, counting the bytes; `none` models the peer closing the
connection before `remaining` reaches zero. -/
def receiveStreamLoop : List (List Nat) → List Nat → Int → Nat → Option (List Nat × Nat)
  | [], acc, remaining, got => if remaining ≤ 0 then some (acc, got) else none
  | c :: rest, acc, remaining, got =>
    if remaining ≤ 0 then some (acc, got)
    else receiveStreamLoop rest (acc ++ c) (remaining - c.length) (got + c.length)

/-- Effect of `open(filepath, 'ab').close()`: create the file if absent, keep it. -/
def touchFile (stored : Option (List Nat)) : Option (List Nat) := some (stored.getD [])

/-- Model of `receiveFileStream(transport, filepath, remaining)`: with `remaining = 0`
it only touches the file and replies `UPLOAD COMPLETE`; otherwise it appends
incoming chunks until `remaining` is exhausted.  The result is the file
content afterwards, the reply, and the number of raw bytes consumed. -/
def receiveFileStreamM (stored : Option (List Nat)) (chunks : List (List Nat))
    (remaining : Int) : Option (Option (List Nat) × String × Nat) :=
  if remaining = 0 then some (touchFile stored, "UPLOAD COMPLETE", 0)
  else
    (receiveStreamLoop chunks (stored.getD []) remaining 0).map
      (fun r => (some r.1, "UPLOAD COMPLETE", r.2))

/-- Model of `sendFileStream(transport, filepath, offset)`: seek to `offset` and push
`DISK_CHUNK`-byte blocks until EOF. -/
def sendFileStreamM (fileBytes : List Nat) (offset : Nat) : List (List Nat) :=
  chunksOf DISK_CHUNK (fileBytes.drop offset)

/-- The raw chunks `performUpload` streams after the negotiation: nothing at
all when `totalSize == 0` (the early return before the streaming loop),
otherwise the file from `offset` in `DISK_CHUNK` blocks. -/
def clientUploadRawChunks (fileBytes : List Nat) (offset totalSize : Nat) :
    List (List Nat) :=
  if totalSize = 0 then [] else chunksOf DISK_CHUNK (fileBytes.drop offset)

/-- Model of `performDownload` after the negotiation (lines 269-289 of `client.py`):
`totalSize == 0` truncates the local file to empty and returns with no raw
read; otherwise the receive loop appends `totalSize - currentSize` bytes.
The result is the local file content and the raw bytes received. -/
def clientDownloadBody (totalSize currentSize : Nat) (localBytes : List Nat)
    (chunks : List (List Nat)) : Option (List Nat × Nat) :=
  if totalSize = 0 then some ([], 0)
  else receiveStreamLoop chunks localBytes ((totalSize : Int) - (currentSize : Int)) 0

/-! ### Event-loop server (`server.py`, Lab 3)

`ClientState` is the per-connection record owned by the single dispatch
thread.  `processAsyncCommand` is a pure transformer on it; the second
component of the result is the uncaught Python exception, if any — the main
loop's `except` clause logs it and carries on, leaving the connection with
whatever state had been mutated before the raise.  The filesystem is again
abstract (`lookupFile` maps a file name to its content); an open read handle
positioned at `offset` is modelled by storing the bytes from `offset` on. -/

/-- Fields of `ClientState.__init__`. -/
structure CState where
  st : String
  buffer : List Char
  send_buffer : List Char
  file : Option (List Nat)
  remaining : Int
  filename : String
deriving DecidableEq

/-- Fresh connection state: `IDLE`, empty buffers, no file. -/
def initialCState : CState :=
  { st := "IDLE", buffer := [], send_buffer := [], file := none, remaining := 0, filename := "" }

/-- Model of `initAsyncUpload`: record the file name, parse the size, reject a
collision with `ERROR: File exists`, otherwise send the `OFFSET` line, open
the file for append and enter `RECV_UPLOAD`.  The exception slot reports the
`IndexError`/`ValueError` a malformed command raises, after the mutations
that precede it. -/
def initAsyncUploadM (digest : List Nat → String) (lookupFile : String → Option (List Nat))
    (c : CState) (parts : List String) : CState × Option String :=
  if parts.length < 2 then (c, some "IndexError")
  else
    let fname := parts.getD 1 ""
    let c1 := { c with filename := fname }
    if parts.length < 3 then (c1, some "IndexError")
    else
      match pyInt (parts.getD 2 "") with
      | none => (c1, some "ValueError")
      | some totalSize =>
        let stored := lookupFile fname
        let cur : Int := ((stored.getD []).length : Int)
        if cur ≥ totalSize ∧ totalSize > 0 then
          ({ c1 with send_buffer := c1.send_buffer ++ "ERROR: File exists\n".data }, none)
        else
          ({ c1 with
              remaining := totalSize - cur,
              send_buffer := c1.send_buffer ++
                ("OFFSET " ++ toString cur ++ " " ++
                  calcChecksum digest stored (stored.getD []).length ++ "\n").data,
              file := some (stored.getD []),
              st := "RECV_UPLOAD" }, none)

/-- Model of `initAsyncDownload`: record the file name and answer `SIZE <n>` or
`ERROR: File not found`. -/
def initAsyncDownloadM (lookupFile : String → Option (List Nat)) (c : CState)
    (parts : List String) : CState × Option String :=
  if parts.length < 2 then (c, some "IndexError")
  else
    let fname := parts.getD 1 ""
    let c1 := { c with filename := fname }
    match lookupFile fname with
    | some bytes =>
      ({ c1 with send_buffer := c1.send_buffer ++ ("SIZE " ++ toString bytes.length ++ "\n").data },
        none)
    | none =>
      ({ c1 with send_buffer := c1.send_buffer ++ "ERROR: File not found\n".data }, none)

/-- Model of `processAsyncOffset`: parse `OFFSET <n> [checksum]` (missing checksum
reads as `"0"`), answer `ABORT` when a positive offset's recomputed prefix
checksum disagrees, otherwise answer `OK`, open the named file at that
offset and enter `SEND_DOWNLOAD`; opening a missing file raises after the
`OK` was queued. -/
def processAsyncOffsetM (digest : List Nat → String) (lookupFile : String → Option (List Nat))
    (c : CState) (parts : List String) : CState × Option String :=
  if parts.length < 2 then (c, some "IndexError")
  else
    match pyInt (parts.getD 1 "") with
    | none => (c, some "ValueError")
    | some offsetI =>
      let clientSum := if parts.length > 2 then parts.getD 2 "" else "0"
      if 0 < offsetI ∧ calcChecksum digest (lookupFile c.filename) offsetI.toNat ≠ clientSum then
        ({ c with send_buffer := c.send_buffer ++ "ABORT\n".data }, none)
      else
        match lookupFile c.filename with
        | none => ({ c with send_buffer := c.send_buffer ++ "OK\n".data }, some "FileNotFoundError")
        | some bytes =>
          ({ c with
              send_buffer := c.send_buffer ++ "OK\n".data,
              file := some (bytes.drop offsetI.toNat),
              st := "SEND_DOWNLOAD" }, none)

/-- Model of `processAsyncCommand`: split, uppercase the first token, dispatch.
`ECHO` queues `line[5:] + "\n"`, the stateless commands queue their
response line, `ABORT` resets to `IDLE`, and a keyword matching no branch
falls through the `if/elif` chain with no effect at all. -/
def processAsyncCommandM (digest : List Nat → String) (now : String) (files : List String)
    (lookupFile : String → Option (List Nat)) (c : CState) (line : String) :
    CState × Option String :=
  let parts := pySplitSpace line
  let cmd := pyUpper (parts.getD 0 "")
  if cmd = "ECHO" then
    ({ c with send_buffer := c.send_buffer ++ line.data.drop 5 ++ ['\n'] }, none)
  else if cmd = "TIME" then
    ({ c with send_buffer := c.send_buffer ++ now.data ++ ['\n'] }, none)
  else if cmd = "LIST" then
    ({ c with send_buffer := c.send_buffer ++ (pyJoin ", " files).data ++ ['\n'] }, none)
  else if cmd = "CLOSE" then
    ({ c with send_buffer := c.send_buffer ++ "BYE\n".data }, none)
  else if cmd = "UPLOAD" then initAsyncUploadM digest lookupFile c parts
  else if cmd = "DOWNLOAD" then initAsyncDownloadM lookupFile c parts
  else if cmd = "OFFSET" then processAsyncOffsetM digest lookupFile c parts
  else if cmd = "ABORT" then ({ c with st := "IDLE" }, none)
  else (c, none)

/-- The engine's client table, keyed by socket identifier. -/
def lookupClient : List (Nat × CState) → Nat → Option CState
  | [], _ => none
  | (k, c) :: rest, j => if k = j then some c else lookupClient rest j

/-- One dispatch turn of `runAsyncServer` for a complete command line from
connection `sid`: `processAsyncCommand` runs on that connection's
`ClientState` and on no other (an exception is logged by the main loop and
the partially mutated state is kept). -/
def engineDispatch (digest : List Nat → String) (now : String) (files : List String)
    (lookupFile : String → Option (List Nat)) (clients : List (Nat × CState)) (sid : Nat)
    (line : String) : List (Nat × CState) :=
  clients.map (fun p =>
    if p.1 = sid then (p.1, (processAsyncCommandM digest now files lookupFile p.2 line).1) else p)

/-- Deliver one `ECHO` command line per listed connection, in order. -/
def foldEcho (digest : List Nat → String) (now : String) (files : List String)
    (lookupFile : String → Option (List Nat)) (cs : List (Nat × CState))
    (cmds : List (Nat × String)) : List (Nat × CState) :=
  cmds.foldl (fun acc it => engineDispatch digest now files lookupFile acc it.1 ("ECHO " ++ it.2))
    cs

/-- Sessions for `N` fresh connections, each issuing `ECHO <own text>` once. -/
def runEchoSessions (digest : List Nat → String) (now : String) (files : List String)
    (lookupFile : String → Option (List Nat)) (ids : List Nat) (texts : List String) :
    List (Nat × CState) :=
  foldEcho digest now files lookupFile (ids.map (fun i => (i, initialCState))) (ids.zip texts)

/-- The threaded server's `ECHO` reply (`processCommandBlocking` line 90). -/
def threadedEchoReply (line : String) : String := pyJoin " " (pySplitSpace line).tail

/-! ### Command handler selection (all three dispatchers)

Each dispatcher computes `parts[0].upper()` and matches it against its
keyword chain; these definitions record only which handler is selected. -/

/-- The branches of `processCommandBlocking`. -/
inductive BlockingHandler where
  | echo | time | list | close | download | upload | unknown
deriving DecidableEq

/-- The `if/elif` chain of `processCommandBlocking`. -/
def selectBlockingHandler (cmd : String) : BlockingHandler :=
  if cmd = "ECHO" then .echo
  else if cmd = "TIME" then .time
  else if cmd = "LIST" then .list
  else if cmd = "CLOSE" then .close
  else if cmd = "DOWNLOAD" then .download
  else if cmd = "UPLOAD" then .upload
  else .unknown

/-- Handler selected by the threaded server for a raw command line. -/
def dispatchBlocking (line : String) : BlockingHandler :=
  selectBlockingHandler (pyUpper ((pySplitSpace line).getD 0 ""))

/-- The branches of `processAsyncCommand`; `ignored` is the missing `else`. -/
inductive AsyncHandler where
  | echo | time | list | close | upload | download | offset | abort | ignored
deriving DecidableEq

/-- The `if/elif` chain of `processAsyncCommand`. -/
def selectAsyncHandler (cmd : String) : AsyncHandler :=
  if cmd = "ECHO" then .echo
  else if cmd = "TIME" then .time
  else if cmd = "LIST" then .list
  else if cmd = "CLOSE" then .close
  else if cmd = "UPLOAD" then .upload
  else if cmd = "DOWNLOAD" then .download
  else if cmd = "OFFSET" then .offset
  else if cmd = "ABORT" then .abort
  else .ignored

/-- Handler selected by the event-loop server for a raw command line. -/
def dispatchAsync (line : String) : AsyncHandler :=
  selectAsyncHandler (pyUpper ((pySplitSpace line).getD 0 ""))

/-- The branches of the client's `processInput`. -/
inductive ClientHandler where
  | help | upload | download | generic
deriving DecidableEq

/-- The `if/elif` chain of `processInput` (`client.py` lines 132-141). -/
def selectClientHandler (cmd : String) : ClientHandler :=
  if cmd = "HELP" then .help
  else if cmd = "UPLOAD" then .upload
  else if cmd = "DOWNLOAD" then .download
  else .generic

/-- Handler selected by the client for a raw input line. -/
def dispatchClient (line : String) : ClientHandler :=
  selectClientHandler (pyUpper ((pySplitSpace line).getD 0 ""))

/-! ## Supporting lemmas -/

theorem chunksOfGo_flatten (n : Nat) (hn : n ≠ 0) :
    ∀ (fuel : Nat) (l : List Nat), l.length ≤ fuel → (chunksOfGo n fuel l).flatten = l := by
  intro fuel
  induction fuel with
  | zero =>
    intro l hl
    have : l = [] := List.eq_nil_of_length_eq_zero (Nat.le_zero.mp hl)
    subst this
    rfl
  | succ fuel ih =>
    intro l hl
    cases l with
    | nil => rfl
    | cons a rest =>
      have hdrop : ((a :: rest).drop n).length ≤ fuel := by
        rw [List.length_drop]
        have hlen : (a :: rest).length ≤ fuel + 1 := hl
        have hn' : 1 ≤ n := Nat.one_le_iff_ne_zero.mpr hn
        omega
      calc (chunksOfGo n (fuel + 1) (a :: rest)).flatten
          = (a :: rest).take n ++ (chunksOfGo n fuel ((a :: rest).drop n)).flatten := by
            rfl
        _ = (a :: rest).take n ++ (a :: rest).drop n := by rw [ih _ hdrop]
        _ = a :: rest := List.take_append_drop n (a :: rest)

theorem chunksOf_flatten (n : Nat) (hn : n ≠ 0) (l : List Nat) :
    (chunksOf n l).flatten = l :=
  chunksOfGo_flatten n hn l.length l le_rfl

theorem dictLookup_insert (d : List (Nat × List Nat)) (k j : Nat) (v : List Nat) :
    dictLookup (dictInsert d k v) j = if j = k then some v else dictLookup d j := by
  induction d with
  | nil =>
    by_cases h : k = j
    · simp [dictInsert, dictLookup, h]
    · have h' : ¬j = k := fun hjk => h hjk.symm
      simp [dictInsert, dictLookup, h, h']
  | cons kv rest ih =>
    obtain ⟨k', v'⟩ := kv
    by_cases hk : k' = k
    · subst hk
      by_cases hj : k' = j
      · simp [dictInsert, dictLookup, hj]
      · have hj' : ¬j = k' := fun h => hj h.symm
        simp [dictInsert, dictLookup, hj, hj']
    · by_cases hj : k' = j
      · have hjk : ¬j = k := fun h => hk (hj.trans h)
        simp [dictInsert, dictLookup, hk, hj, hjk]
      · simp [dictInsert, dictLookup, hk, hj, ih]

theorem mem_dictInsert (d : List (Nat × List Nat)) (k : Nat) (v : List Nat)
    (kv : Nat × List Nat) (h : kv ∈ dictInsert d k v) : kv = (k, v) ∨ kv ∈ d := by
  induction d with
  | nil =>
    simp [dictInsert] at h
    exact Or.inl h
  | cons kv' rest ih =>
    obtain ⟨k', v'⟩ := kv'
    by_cases hk : k' = k
    · simp [dictInsert, hk] at h
      rcases h with h | h
      · exact Or.inl (by simp [h])
      · exact Or.inr (List.mem_cons_of_mem _ h)
    · simp [dictInsert, hk] at h
      rcases h with h | h
      · exact Or.inr (by simp [h])
      · rcases ih h with h' | h'
        · exact Or.inl h'
        · exact Or.inr (List.mem_cons_of_mem _ h')

theorem mem_keys_dictInsert (d : List (Nat × List Nat)) (k : Nat) (v : List Nat) (j : Nat) :
    j ∈ (dictInsert d k v).map Prod.fst ↔ j = k ∨ j ∈ d.map Prod.fst := by
  induction d with
  | nil => simp [dictInsert]
  | cons kv rest ih =>
    obtain ⟨k', v'⟩ := kv
    by_cases hk : k' = k
    · have he : dictInsert ((k', v') :: rest) k v = (k, v) :: rest := by
        simp [dictInsert, hk]
      rw [he, List.map_cons, List.map_cons, List.mem_cons, List.mem_cons, hk]
      constructor
      · rintro (h | h)
        · exact Or.inl h
        · exact Or.inr (Or.inr h)
      · rintro (h | h | h)
        · exact Or.inl h
        · exact Or.inl h
        · exact Or.inr h
    · have he : dictInsert ((k', v') :: rest) k v = (k', v') :: dictInsert rest k v := by
        simp [dictInsert, hk]
      rw [he, List.map_cons, List.map_cons, List.mem_cons, List.mem_cons, ih]
      tauto

theorem nodup_keys_dictInsert (d : List (Nat × List Nat)) (k : Nat) (v : List Nat)
    (h : (d.map Prod.fst).Nodup) : ((dictInsert d k v).map Prod.fst).Nodup := by
  induction d with
  | nil => simp [dictInsert]
  | cons kv rest ih =>
    obtain ⟨k', v'⟩ := kv
    rw [List.map_cons, List.nodup_cons] at h
    by_cases hk : k' = k
    · have he : dictInsert ((k', v') :: rest) k v = (k, v) :: rest := by
        simp [dictInsert, hk]
      rw [he, List.map_cons, List.nodup_cons]
      exact ⟨hk ▸ h.1, h.2⟩
    · have he : dictInsert ((k', v') :: rest) k v = (k', v') :: dictInsert rest k v := by
        simp [dictInsert, hk]
      have h2 := ih h.2
      rw [he, List.map_cons, List.nodup_cons]
      refine ⟨?_, h2⟩
      intro hmem
      rcases (mem_keys_dictInsert rest k v k').mp hmem with h' | h'
      · exact hk h'
      · exact h.1 h'

theorem dictLookup_isSome_iff (d : List (Nat × List Nat)) (j : Nat) :
    (dictLookup d j).isSome ↔ j ∈ d.map Prod.fst := by
  induction d with
  | nil => simp [dictLookup]
  | cons kv rest ih =>
    obtain ⟨k', v'⟩ := kv
    by_cases h : k' = j
    · simp [dictLookup, h]
    · have h' : ¬j = k' := fun hj => h hj.symm
      simp [dictLookup, h, h', ih]

theorem dictLookup_eq_some_mem (d : List (Nat × List Nat)) (j : Nat) (v : List Nat)
    (h : dictLookup d j = some v) : (j, v) ∈ d := by
  induction d with
  | nil => simp [dictLookup] at h
  | cons kv rest ih =>
    obtain ⟨k', v'⟩ := kv
    by_cases hk : k' = j
    · subst hk
      simp [dictLookup] at h
      simp [h]
    · simp [dictLookup, hk] at h
      exact List.mem_cons_of_mem _ (ih h)

theorem dict_keys_complete (segs : List (List Nat)) (d : List (Nat × List Nat))
    (hnd : (d.map Prod.fst).Nodup)
    (hcons : ∀ kv ∈ d, segs.get? kv.1 = some kv.2)
    (hcov : ∀ i, i < segs.length → (dictLookup d i).isSome) :
    d.length = segs.length ∧ ∀ i, i < segs.length → dictLookup d i = segs.get? i := by
  have hsub : ∀ j ∈ d.map Prod.fst, j < segs.length := by
    intro j hj
    obtain ⟨kv, hkv, hfst⟩ := List.mem_map.mp hj
    have h1 := hcons kv hkv
    obtain ⟨hlt, _⟩ := List.get?_eq_some.mp h1
    exact hfst ▸ hlt
  have hmem : ∀ i, i < segs.length → i ∈ d.map Prod.fst := fun i hi =>
    (dictLookup_isSome_iff d i).mp (hcov i hi)
  have hK : (d.map Prod.fst).toFinset = Finset.range segs.length := by
    apply Finset.Subset.antisymm
    · intro j hj
      rw [List.mem_toFinset] at hj
      exact Finset.mem_range.mpr (hsub j hj)
    · intro j hj
      rw [List.mem_toFinset]
      exact hmem j (Finset.mem_range.mp hj)
  have hlen : d.length = segs.length := by
    have h1 : (d.map Prod.fst).toFinset.card = (d.map Prod.fst).length :=
      List.toFinset_card_of_nodup hnd
    rw [hK, Finset.card_range] at h1
    simpa using h1.symm
  refine ⟨hlen, ?_⟩
  intro i hi
  have hsome := (dictLookup_isSome_iff d i).mpr (hmem i hi)
  obtain ⟨v, hv⟩ := Option.isSome_iff_exists.mp hsome
  have hv2 := hcons (i, v) (dictLookup_eq_some_mem d i v hv)
  rw [hv, hv2]

theorem mapM_range' (f : Nat → Option (List Nat)) :
    ∀ (l : List (List Nat)) (s : Nat), (∀ i, i < l.length → f (s + i) = l.get? i) →
      (List.range' s l.length).mapM f = some l := by
  intro l
  induction l with
  | nil => intro s _; rfl
  | cons a rest ih =>
    intro s h
    have h0 : f s = some a := by
      have := h 0 (Nat.succ_pos _)
      simpa using this
    have hrest : (List.range' (s + 1) rest.length).mapM f = some rest := by
      apply ih
      intro i hi
      have := h (i + 1) (Nat.succ_lt_succ hi)
      have harith : s + (i + 1) = s + 1 + i := by omega
      rw [harith] at this
      simpa using this
    rw [List.length_cons, List.range'_succ, List.mapM_cons, h0, hrest]
    rfl

theorem assembleResult_complete (segs : List (List Nat)) (d : List (Nat × List Nat))
    (h : ∀ i, i < segs.length → dictLookup d i = segs.get? i) :
    assembleResult d segs.length = some segs.flatten := by
  unfold assembleResult
  rw [List.range_eq_range', mapM_range' (dictLookup d) segs 0 (by simpa using h)]
  rfl

theorem dict_complete_of_length (segs : List (List Nat)) (d : List (Nat × List Nat))
    (hnd : (d.map Prod.fst).Nodup)
    (hcons : ∀ kv ∈ d, segs.get? kv.1 = some kv.2)
    (hlen : d.length = segs.length) :
    ∀ i, i < segs.length → dictLookup d i = segs.get? i := by
  have hsub : (d.map Prod.fst).toFinset ⊆ Finset.range segs.length := by
    intro j hj
    rw [List.mem_toFinset] at hj
    obtain ⟨kv, hkv, hfst⟩ := List.mem_map.mp hj
    have h1 := hcons kv hkv
    obtain ⟨hlt, _⟩ := List.get?_eq_some.mp h1
    exact Finset.mem_range.mpr (hfst ▸ hlt)
  have hcard : (Finset.range segs.length).card ≤ (d.map Prod.fst).toFinset.card := by
    rw [Finset.card_range, List.toFinset_card_of_nodup hnd, List.length_map, hlen]
  have hK := Finset.eq_of_subset_of_card_le hsub hcard
  intro i hi
  have hik : i ∈ d.map Prod.fst := by
    rw [← List.mem_toFinset, hK]
    exact Finset.mem_range.mpr hi
  have hsome := (dictLookup_isSome_iff d i).mpr hik
  obtain ⟨v, hv⟩ := Option.isSome_iff_exists.mp hsome
  have hv2 := hcons (i, v) (dictLookup_eq_some_mem d i v hv)
  rw [hv, hv2]

/-- Soundness and completeness of the bitmap receiver against the blast
sender, in one statement: feed `recvReliable` any trace of sender datagrams
(arbitrarily reordered, duplicated and thinned — i.e. an arbitrary lossy,
duplicating channel) that delivers every data segment at least once before
some `F` marker, starting from any dict state consistent with the
transmitted segments; the receiver returns the transmitted payload and the
sender's address. -/
theorem recvLoop_go (data : List Nat) (sa : Nat) :
    ∀ (t1 t2 : List (Nat × UPacket)) (d : List (Nat × List Nat)),
      (∀ q ∈ t1, isSenderPacket data q.2 = true ∧ q.1 = sa) →
      ((d.map Prod.fst).Nodup) →
      (∀ kv ∈ d, (senderSegments data).get? kv.1 = some kv.2) →
      (∀ i (hi : i < (senderSegments data).length),
        (sa, UPacket.dat i ((senderSegments data).get ⟨i, hi⟩)) ∈ t1 ∨
          (dictLookup d i).isSome) →
      recvReliableLoop (t1 ++ (sa, UPacket.fin (senderSegments data).length) :: t2) d =
        some ((senderSegments data).flatten, sa) := by
  intro t1
  induction t1 with
  | nil =>
    intro t2 d _ hnd hcons hcov
    have hcov' : ∀ i, i < (senderSegments data).length → (dictLookup d i).isSome := by
      intro i hi
      rcases hcov i hi with h | h
      · exact absurd h (List.not_mem_nil _)
      · exact h
    obtain ⟨hlen, hlook⟩ := dict_keys_complete (senderSegments data) d hnd hcons hcov'
    rw [List.nil_append]
    simp only [recvReliableLoop, if_pos hlen,
      assembleResult_complete (senderSegments data) d hlook]
    rfl
  | cons q rest ih =>
    intro t2 d hpk hnd hcons hcov
    obtain ⟨a, p⟩ := q
    have hq := hpk (a, p) (List.mem_cons_self _ _)
    have ha : a = sa := hq.2
    subst ha
    cases p with
    | dat seq payload =>
      have hseg : (senderSegments data).get? seq = some payload := by
        have := hq.1
        simpa [isSenderPacket] using this
      rw [List.cons_append]
      show recvReliableLoop (rest ++ _) (dictInsert d seq payload) = _
      apply ih
      · intro q' hq'
        exact hpk q' (List.mem_cons_of_mem _ hq')
      · exact nodup_keys_dictInsert d seq payload hnd
      · intro kv hkv
        rcases mem_dictInsert d seq payload kv hkv with h | h
        · subst h; exact hseg
        · exact hcons kv h
      · intro i hi
        rcases hcov i hi with h | h
        · rcases List.mem_cons.mp h with h | h
          · have h2 : UPacket.dat i ((senderSegments data).get ⟨i, hi⟩) =
                UPacket.dat seq payload := congrArg Prod.snd h
            have his : i = seq := by injection h2
            right
            rw [dictLookup_insert]
            simp [his]
          · exact Or.inl h
        · right
          rw [dictLookup_insert]
          by_cases hik : i = seq
          · simp [hik]
          · simpa [hik] using h
    | fin total =>
      have htot : total = (senderSegments data).length := by
        have := hq.1
        simpa [isSenderPacket] using this
      subst htot
      rw [List.cons_append]
      by_cases hdl : d.length = (senderSegments data).length
      · have hlook := dict_complete_of_length (senderSegments data) d hnd hcons hdl
        simp only [recvReliableLoop, if_pos hdl,
          assembleResult_complete (senderSegments data) d hlook]
        rfl
      · simp only [recvReliableLoop, if_neg hdl]
        apply ih
        · intro q' hq'
          exact hpk q' (List.mem_cons_of_mem _ hq')
        · exact hnd
        · exact hcons
        · intro i hi
          rcases hcov i hi with h | h
          · rcases List.mem_cons.mp h with h | h
            · have h2 : UPacket.dat i ((senderSegments data).get ⟨i, hi⟩) =
                  UPacket.fin (senderSegments data).length := congrArg Prod.snd h
              exact absurd h2 (by simp)
            · exact Or.inl h
          · exact Or.inr h
    | ack seq bitmap =>
      exact absurd hq.1 (by simp [isSenderPacket])

theorem splitSp_ne_nil : ∀ (l acc : List Char), splitSp acc l ≠ [] := by
  intro l
  induction l with
  | nil => intro acc; simp [splitSp]
  | cons c rest ih =>
    intro acc
    by_cases h : c = ' '
    · simp [splitSp, h]
    · simp only [splitSp, if_neg h]
      exact ih (c :: acc)

theorem joinSep_cons_of_ne_nil (sep : List Char) (x : List Char) (xs : List (List Char))
    (h : xs ≠ []) : joinSep sep (x :: xs) = x ++ sep ++ joinSep sep xs := by
  cases xs with
  | nil => exact absurd rfl h
  | cons y ys => rfl

theorem joinSep_splitSp : ∀ (l acc : List Char),
    joinSep [' '] (splitSp acc l) = acc.reverse ++ l := by
  intro l
  induction l with
  | nil => intro acc; simp [splitSp, joinSep]
  | cons c rest ih =>
    intro acc
    by_cases h : c = ' '
    · subst h
      rw [splitSp, if_pos rfl,
        joinSep_cons_of_ne_nil [' '] acc.reverse (splitSp [] rest) (splitSp_ne_nil rest []),
        ih []]
      simp
    · rw [splitSp, if_neg h, ih (c :: acc)]
      simp

theorem pyJoin_pySplitSpace (s : String) : pyJoin " " (pySplitSpace s) = s := by
  show String.mk (joinSep " ".data (((splitSp [] s.data).map (fun cs => String.mk cs)).map
    String.data)) = s
  rw [List.map_map]
  have hcomp : (String.data ∘ fun cs => String.mk cs) = id := rfl
  rw [hcomp, List.map_id]
  show String.mk (joinSep [' '] (splitSp [] s.data)) = s
  rw [joinSep_splitSp s.data []]
  rfl

theorem lookupClient_engineDispatch (digest : List Nat → String) (now : String)
    (files : List String) (lookupFile : String → Option (List Nat)) (cs : List (Nat × CState))
    (sid : Nat) (line : String) (j : Nat) :
    lookupClient (engineDispatch digest now files lookupFile cs sid line) j =
      if j = sid then
        (lookupClient cs sid).map
          (fun c => (processAsyncCommandM digest now files lookupFile c line).1)
      else lookupClient cs j := by
  induction cs with
  | nil =>
    by_cases h : j = sid <;> simp [engineDispatch, lookupClient, h]
  | cons p rest ih =>
    obtain ⟨k, c⟩ := p
    by_cases hks : k = sid
    · subst hks
      have hmap : engineDispatch digest now files lookupFile ((k, c) :: rest) k line =
          (k, (processAsyncCommandM digest now files lookupFile c line).1) ::
            engineDispatch digest now files lookupFile rest k line := by
        simp [engineDispatch]
      rw [hmap]
      by_cases hkj : k = j
      · subst hkj
        simp [lookupClient]
      · have hjk : ¬j = k := fun h => hkj h.symm
        simp [lookupClient, hkj, hjk, ih]
    · have hmap : engineDispatch digest now files lookupFile ((k, c) :: rest) sid line =
          (k, c) :: engineDispatch digest now files lookupFile rest sid line := by
        simp [engineDispatch, hks]
      rw [hmap]
      by_cases hkj : k = j
      · subst hkj
        simp [lookupClient, hks]
      · have hjk : ¬j = k := fun h => hkj h.symm
        by_cases hjs : j = sid
        · subst hjs
          simp [lookupClient, hks, hkj, ih]
        · simp [lookupClient, hks, hkj, hjk, hjs, ih]

theorem foldEcho_untouched (digest : List Nat → String) (now : String) (files : List String)
    (lookupFile : String → Option (List Nat)) :
    ∀ (cmds : List (Nat × String)) (cs : List (Nat × CState)) (j : Nat),
      (∀ c ∈ cmds, c.1 ≠ j) →
      lookupClient (foldEcho digest now files lookupFile cs cmds) j = lookupClient cs j := by
  intro cmds
  induction cmds with
  | nil => intro cs j _; rfl
  | cons it rest ih =>
    intro cs j h
    have h1 := h it (List.mem_cons_self _ _)
    show lookupClient (foldEcho digest now files lookupFile
      (engineDispatch digest now files lookupFile cs it.1 ("ECHO " ++ it.2)) rest) j = _
    rw [ih _ _ (fun c hc => h c (List.mem_cons_of_mem _ hc)),
      lookupClient_engineDispatch, if_neg (fun hj => h1 hj.symm)]

theorem foldEcho_lookup (digest : List Nat → String) (now : String) (files : List String)
    (lookupFile : String → Option (List Nat)) :
    ∀ (ids : List Nat) (texts : List String) (cs : List (Nat × CState)),
      ids.Nodup → ids.length = texts.length →
      (∀ i ∈ ids, lookupClient cs i = some initialCState) →
      ∀ k (hk : k < ids.length),
        lookupClient (foldEcho digest now files lookupFile cs (ids.zip texts))
            (ids.get ⟨k, hk⟩) =
          some ((processAsyncCommandM digest now files lookupFile initialCState
            ("ECHO " ++ texts.getD k "")).1) := by
  intro ids
  induction ids with
  | nil =>
    intro texts cs _ _ _ k hk
    exact absurd hk (by simp)
  | cons i ids ih =>
    intro texts cs hnd hlen hinit k hk
    cases texts with
    | nil => simp at hlen
    | cons t texts =>
      have hni : i ∉ ids := (List.nodup_cons.mp hnd).1
      have hstep : foldEcho digest now files lookupFile cs ((i :: ids).zip (t :: texts)) =
          foldEcho digest now files lookupFile
            (engineDispatch digest now files lookupFile cs i ("ECHO " ++ t))
            (ids.zip texts) := rfl
      rw [hstep]
      cases k with
      | zero =>
        have hnotin : ∀ c ∈ ids.zip texts, c.1 ≠ i := by
          intro c hc hci
          obtain ⟨a, b⟩ := c
          exact hni (hci ▸ (List.of_mem_zip hc).1)
        rw [show (i :: ids).get ⟨0, hk⟩ = i from rfl,
          foldEcho_untouched digest now files lookupFile _ _ _ hnotin,
          lookupClient_engineDispatch, if_pos rfl,
          hinit i (List.mem_cons_self _ _)]
        rfl
      | succ k =>
        have hk' : k < ids.length := Nat.lt_of_succ_lt_succ hk
        have hget : (i :: ids).get ⟨k + 1, hk⟩ = ids.get ⟨k, hk'⟩ := rfl
        have hgetD : (t :: texts).getD (k + 1) "" = texts.getD k "" := rfl
        rw [hget, hgetD]
        apply ih texts _ (List.nodup_cons.mp hnd).2 (Nat.succ_injective hlen)
        intro i' hi'
        rw [lookupClient_engineDispatch, if_neg (show ¬i' = i from fun h => hni (h ▸ hi'))]
        exact hinit i' (List.mem_cons_of_mem _ hi')

theorem lookupClient_map_initial : ∀ (ids : List Nat) (j : Nat), j ∈ ids →
    lookupClient (ids.map (fun i => (i, initialCState))) j = some initialCState := by
  intro ids
  induction ids with
  | nil => intro j hj; exact absurd hj (List.not_mem_nil _)
  | cons i rest ih =>
    intro j hj
    by_cases h : i = j
    · simp [lookupClient, h]
    · rcases List.mem_cons.mp hj with h' | h'
      · exact absurd h'.symm h
      · simp [lookupClient, h, ih j h']

theorem sendFinLoop_any (l : List (Option (Nat × Nat))) (total : Nat) :
    sendFinLoop l total = l.any (fun r => isGoodFinAck r total) := by
  induction l with
  | nil => rfl
  | cons r rest ih =>
    cases h : isGoodFinAck r total
    · simp [sendFinLoop, h, ih]
    · simp [sendFinLoop, h]

/-! ## Claims -/

/-- Claim C1, counterexample: the claim promises that the received bytes
equal the sent blob byte-for-byte even for the empty blob, but
`sendReliable` substitutes `b' '` for an empty payload, so its only data
segment is the single byte 32; any successful `recvReliable` run on the
sender's datagrams therefore yields `[32]`, not `[]`. -/
theorem C1_counterexample :
    senderSegments [] = [[32]] ∧
    recvReliableLoop [(0, UPacket.dat 0 [32]), (0, UPacket.fin 1)] [] = some ([32], 0) ∧
    ([32] : List Nat) ≠ [] := by decide

/-- Claim C1 (amended): for every nonempty byte blob `data`, feeding
`recvReliable` any trace of `sendReliable` datagrams — arbitrarily
reordered, duplicated and thinned, i.e. a channel with loss probability
`p < 1`, duplication and reordering — that delivers every data segment at
least once before some `F` marker, yields exactly `(data, sender address)`.
The empty blob is excluded: it is transmitted as the single space byte. -/
theorem C1_amended (data : List Nat) (sa : Nat) (t1 t2 : List (Nat × UPacket))
    (hne : data ≠ [])
    (hpk : ∀ q ∈ t1, isSenderPacket data q.2 = true ∧ q.1 = sa)
    (hcov : ∀ i (hi : i < (senderSegments data).length),
      (sa, UPacket.dat i ((senderSegments data).get ⟨i, hi⟩)) ∈ t1) :
    recvReliableLoop (t1 ++ (sa, UPacket.fin (senderSegments data).length) :: t2) [] =
      some (data, sa) := by
  have h := recvLoop_go data sa t1 t2 [] hpk (by simp) (by simp)
    (fun i hi => Or.inl (hcov i hi))
  have hf : (senderSegments data).flatten = data := by
    rw [senderSegments, chunksOf_flatten PAYLOAD_SIZE (by decide) (sendPayload data)]
    simp [sendPayload, hne]
  rw [h, hf]

/-- Witness for `C1_amended`: the two-byte blob `[7, 8]` from address 3,
delivered as one data segment followed by the FIN. -/
theorem C1_witness :
    (([7, 8] : List Nat) ≠ []) ∧
    recvReliableLoop [(3, UPacket.dat 0 [7, 8]), (3, UPacket.fin 1)] [] = some ([7, 8], 3) :=
  ⟨by decide,
    C1_amended [7, 8] 3 [(3, UPacket.dat 0 [7, 8])] [] (by decide) (by decide) (by decide)⟩

/-- Claim C2 is right and the code is wrong (`code_bug`): on a prefix
checksum mismatch the client does send `RESTART` and then blocks waiting for
`READY` (client.py line 188), but `handleUploadBlocking` only special-cases
`ABORT` — fed `"RESTART"` it neither truncates the stored file nor replies
`READY`; it proceeds straight to `receiveFileStream` expecting
`totalSize - currentSize` bytes to append at the stale offset. -/
theorem C2_bug :
    clientUploadDecision 4 "aaaa" "bbbb" = ("RESTART", 0) ∧
    serverUploadDecisionStep "RESTART" 10 4 = UploadDecisionAction.receiveStream 6 ∧
    serverUploadDecisionStep "RESTART" 10 4 ≠ UploadDecisionAction.returnIdle := by decide

/-- Claim C3, counterexample: with a positive offset and a checksum
mismatch the server replies `ABORT`, not `RESTART`, and the client treats
`ABORT` as a failed negotiation (it neither discards its partial copy nor
resends `OFFSET 0 0`). -/
theorem C3_counterexample :
    serverDownloadOffsetReply (fun _ => "X") [1, 2, 3, 4, 5] 4 "Y" = "ABORT" ∧
    ("ABORT" : String) ≠ "RESTART" ∧
    clientDownloadDecision "ABORT" = ClientDownloadAction.negotiationFailed "ABORT" := by
  decide

/-- Claim C3 (amended): for every offset `cur > 0` the server (both the
threaded handler and `processAsyncOffset`) recomputes the checksum of its
first `cur` bytes; if it differs from the client's checksum the server
replies `ABORT` and abandons the transfer — the client then reports a
failed negotiation and returns, its `RESTART` discard-and-resend path never
being triggered by this server; if it matches the server replies `OK`. -/
theorem C3_amended (digest : List Nat → String) (fileBytes : List Nat) (offsetI : Int)
    (chk : String) (c : CState) (lookupFile : String → Option (List Nat)) (offStr : String)
    (hpos : 0 < offsetI) (hparse : pyInt offStr = some offsetI)
    (hfile : lookupFile c.filename = some fileBytes) :
    (calcChecksum digest (some fileBytes) offsetI.toNat ≠ chk →
      serverDownloadOffsetReply digest fileBytes offsetI chk = "ABORT" ∧
      (processAsyncOffsetM digest lookupFile c ["OFFSET", offStr, chk]).1.send_buffer =
        c.send_buffer ++ "ABORT\n".data ∧
      clientDownloadDecision "ABORT" = ClientDownloadAction.negotiationFailed "ABORT") ∧
    (calcChecksum digest (some fileBytes) offsetI.toNat = chk →
      serverDownloadOffsetReply digest fileBytes offsetI chk = "OK" ∧
      (processAsyncOffsetM digest lookupFile c ["OFFSET", offStr, chk]).1.send_buffer =
        c.send_buffer ++ "OK\n".data) := by
  have hg : pyInt ((["OFFSET", offStr, chk] : List String).getD 1 "") = some offsetI := hparse
  constructor
  · intro hm
    refine ⟨?_, ?_, by decide⟩
    · unfold serverDownloadOffsetReply
      rw [if_pos ⟨hpos, hm⟩]
    · have hcall : processAsyncOffsetM digest lookupFile c ["OFFSET", offStr, chk] =
          ({ c with send_buffer := c.send_buffer ++ "ABORT\n".data }, none) := by
        unfold processAsyncOffsetM
        rw [if_neg (show ¬(["OFFSET", offStr, chk] : List String).length < 2 by simp), hg]
        show (if 0 < offsetI ∧ calcChecksum digest (lookupFile c.filename) offsetI.toNat ≠
            (if (["OFFSET", offStr, chk] : List String).length > 2 then
              (["OFFSET", offStr, chk] : List String).getD 2 "" else "0") then _ else _) = _
        rw [if_pos (show (["OFFSET", offStr, chk] : List String).length > 2 by simp), hfile,
          if_pos ⟨hpos, hm⟩]
      rw [hcall]
  · intro hm
    constructor
    · unfold serverDownloadOffsetReply
      rw [if_neg (fun hc => hc.2 hm)]
    · have hcall : processAsyncOffsetM digest lookupFile c ["OFFSET", offStr, chk] =
          ({ c with
              send_buffer := c.send_buffer ++ "OK\n".data,
              file := some (fileBytes.drop offsetI.toNat),
              st := "SEND_DOWNLOAD" }, none) := by
        unfold processAsyncOffsetM
        rw [if_neg (show ¬(["OFFSET", offStr, chk] : List String).length < 2 by simp), hg]
        show (if 0 < offsetI ∧ calcChecksum digest (lookupFile c.filename) offsetI.toNat ≠
            (if (["OFFSET", offStr, chk] : List String).length > 2 then
              (["OFFSET", offStr, chk] : List String).getD 2 "" else "0") then _ else _) = _
        rw [if_pos (show (["OFFSET", offStr, chk] : List String).length > 2 by simp), hfile,
          if_neg (fun hc => hc.2 hm)]
      rw [hcall]

/-- Witness for `C3_amended`: a one-byte file at offset 1 whose digest `"X"`
differs from the claimed checksum `"Z"`, answered `ABORT`. -/
theorem C3_witness :
    ((0 : Int) < 1) ∧
    serverDownloadOffsetReply (fun _ => "X") [1] 1 "Z" = "ABORT" :=
  ⟨by decide,
    ((C3_amended (fun _ => "X") [1] 1 "Z" initialCState (fun _ => some [1]) "1" (by decide)
      (by decide) rfl).1 (by decide)).1⟩

/-- Claim C4, counterexample: a round of either send loop in which no
acknowledgment arrives leaves the loop state unchanged — `blastRound` with
no bitmaps keeps `unacked` intact and `processAcks` with no packets keeps
`base` — so with an unacknowledged segment outstanding both loops are still
running after 100 rounds (and, by `C4_amended`, after any number): there is
no retransmission bound and no `Timeout`. -/
theorem C4_counterexample :
    blastRound [0] [] = [0] ∧ runSendBitmap 100 [0] [] = false ∧
    processAcksM 0 [] = 0 ∧ runSendGbn 100 0 1 [] = false := by decide

/-- Claim C4 (amended): both ARQ send loops exit only when every segment is
acknowledged; when acknowledgments stop arriving the loop state is a
fixpoint, so the sender retransmits forever — it neither succeeds nor fails
with a `Timeout` after any bounded number of rounds. -/
theorem C4_amended (fuel : Nat) (unacked : List Nat) (base total : Nat)
    (h1 : unacked ≠ []) (h2 : base < total) :
    runSendBitmap fuel unacked [] = false ∧ runSendGbn fuel base total [] = false := by
  induction fuel with
  | zero =>
    constructor
    · cases unacked with
      | nil => exact absurd rfl h1
      | cons s rest => rfl
    · exact decide_eq_false (Nat.not_le.mpr h2)
  | succ fuel ih =>
    constructor
    · cases unacked with
      | nil => exact absurd rfl h1
      | cons s rest => exact ih.1
    · show (if total ≤ base then true
        else runSendGbn fuel (processAcksM base (List.headD [] [])) total (List.tail [])) = false
      rw [if_neg (Nat.not_le.mpr h2)]
      exact ih.2

/-- Witness for `C4_amended`: one unacknowledged segment, base 0 of 1, three
silent rounds. -/
theorem C4_witness :
    (([0] : List Nat) ≠ [] ∧ 0 < 1) ∧
    (runSendBitmap 3 [0] [] = false ∧ runSendGbn 3 0 1 [] = false) :=
  ⟨⟨by decide, by decide⟩, C4_amended 3 [0] 0 1 (by decide) (by decide)⟩

/-- Claim C5, counterexample: with no acknowledgment arriving in any of the
10 attempts, `sendFin` exhausts its budget and returns normally
(`Except.ok`, the same way the acknowledged path returns) — the exhaustion
is not reported as a `Timeout` failure. -/
theorem C5_counterexample :
    sendFinM (List.replicate 10 none) 1 = Except.ok false ∧
    (sendFinM (List.replicate 10 none) 1).isOk = true := ⟨rfl, rfl⟩

/-- Claim C5 (amended): the FIN is retransmitted up to 10 times and the loop
stops as soon as a matching acknowledgment (`A` packet for `total`) arrives,
but whatever the channel does the call returns `Except.ok` — exhausting the
budget is silent, indistinguishable to the caller from success, and never a
`Timeout` failure. -/
theorem C5_amended (responses : List (Option (Nat × Nat))) (total : Nat) :
    sendFinM responses total =
      Except.ok ((responses.take 10).any (fun r => isGoodFinAck r total)) := by
  unfold sendFinM
  rw [sendFinLoop_any]

/-- Claim C6: an `UPLOAD` whose declared size is positive but does not
exceed the server's stored size is rejected with an `ERROR` line in both
servers, no transfer begins (the threaded handler returns before any
receive, the event-loop handler stays out of `RECV_UPLOAD` with no file
handle opened), and the stored file is untouched. -/
theorem C6 (digest : List Nat → String) (stored : Option (List Nat)) (name sizeStr : String)
    (lookupFile : String → Option (List Nat)) (c : CState) (totalSize : Int)
    (hparse : pyInt sizeStr = some totalSize)
    (hpos : 0 < totalSize)
    (hcur : totalSize ≤ ((stored.getD []).length : Int))
    (hfile : lookupFile name = stored) :
    handleUploadBlockingM digest stored ["UPLOAD", name, sizeStr] =
      .reject "ERROR: File completely exists on server. Upload blocked." stored ∧
    initAsyncUploadM digest lookupFile c ["UPLOAD", name, sizeStr] =
      ({ c with
          filename := name,
          send_buffer := c.send_buffer ++ "ERROR: File exists\n".data }, none) ∧
    pyStartsWith "ERROR" "ERROR: File completely exists on server. Upload blocked." = true ∧
    pyStartsWith "ERROR" "ERROR: File exists" = true := by
  have hg : pyInt ((["UPLOAD", name, sizeStr] : List String).getD 2 "") = some totalSize :=
    hparse
  refine ⟨?_, ?_, by decide, by decide⟩
  · unfold handleUploadBlockingM
    rw [if_neg (show ¬(["UPLOAD", name, sizeStr] : List String).length < 3 by simp), hg]
    show (if ((stored.getD []).length : Int) ≥ totalSize ∧ totalSize > 0 then _ else _) = _
    rw [if_pos ⟨hcur, hpos⟩]
  · unfold initAsyncUploadM
    rw [if_neg (show ¬(["UPLOAD", name, sizeStr] : List String).length < 2 by simp),
      if_neg (show ¬(["UPLOAD", name, sizeStr] : List String).length < 3 by simp), hg]
    show (if ((((lookupFile (["UPLOAD", name, sizeStr].getD 1 ""))).getD []).length : Int) ≥
        totalSize ∧ totalSize > 0 then _ else _) = _
    rw [show (["UPLOAD", name, sizeStr] : List String).getD 1 "" = name from rfl, hfile,
      if_pos ⟨hcur, hpos⟩]

/-- Witness for `C6`: a 2-byte stored file and a declared size of 1. -/
theorem C6_witness :
    (pyInt "1" = some 1 ∧ (0 : Int) < 1 ∧ (1 : Int) ≤ (((some [1, 2] : Option (List Nat)).getD
      []).length : Int)) ∧
    handleUploadBlockingM (fun _ => "d") (some [1, 2]) ["UPLOAD", "f", "1"] =
      .reject "ERROR: File completely exists on server. Upload blocked." (some [1, 2]) :=
  ⟨⟨by decide, by decide, by decide⟩,
    (C6 (fun _ => "d") (some [1, 2]) "f" "1" (fun _ => some [1, 2]) initialCState 1 (by decide)
      (by decide) (by decide) rfl).1⟩

/-- Claim C7, counterexample: `UPLOAD x` (missing size) makes
`handleUploadBlocking` return with no reply at all — not a line beginning
`ERROR:` — and `UPLOAD x abc` (non-numeric size) raises `ValueError`, which
`threadedClientHandler` catches by closing the connection: that single
malformed command terminates the session.  `DOWNLOAD` with no argument is
likewise silently ignored. -/
theorem C7_counterexample :
    processCommandBlockingM (fun _ => "d") "now" [] none "UPLOAD x" = .replies [] ∧
    processCommandBlockingM (fun _ => "d") "now" [] none "DOWNLOAD" = .replies [] ∧
    processCommandBlockingM (fun _ => "d") "now" [] none "UPLOAD x abc" = .exn "ValueError" ∧
    threadedSessionAfter (.exn "ValueError") = false := by decide

/-- Claim C7 (amended): a command whose uppercased first token matches no
keyword is answered `ERROR: Unknown command` and the session continues; but
an `UPLOAD`/`DOWNLOAD` with missing arguments is silently ignored (no reply
of any kind), and a non-numeric `UPLOAD` size raises an exception that the
threaded server turns into closing that client's session. -/
theorem C7_amended (digest : List Nat → String) (now : String) (files : List String)
    (stored : Option (List Nat)) (cmdLine : String)
    (h : pyUpper ((pySplitSpace cmdLine).getD 0 "") ∉
      (["ECHO", "TIME", "LIST", "CLOSE", "DOWNLOAD", "UPLOAD"] : List String)) :
    (processCommandBlockingM digest now files stored cmdLine =
        .replies ["ERROR: Unknown command"] ∧
      threadedSessionAfter (processCommandBlockingM digest now files stored cmdLine) = true) ∧
    processCommandBlockingM digest now files stored "UPLOAD x" = .replies [] ∧
    processCommandBlockingM digest now files stored "UPLOAD x abc" = .exn "ValueError" ∧
    threadedSessionAfter (.exn "ValueError") = false := by
  have hne : ∀ s ∈ (["ECHO", "TIME", "LIST", "CLOSE", "DOWNLOAD", "UPLOAD"] : List String),
      pyUpper ((pySplitSpace cmdLine).getD 0 "") ≠ s := fun s hs he => h (he ▸ hs)
  have hcall : processCommandBlockingM digest now files stored cmdLine =
      .replies ["ERROR: Unknown command"] := by
    unfold processCommandBlockingM
    rw [if_neg (hne "ECHO" (by simp)), if_neg (hne "TIME" (by simp)),
      if_neg (hne "LIST" (by simp)), if_neg (hne "CLOSE" (by simp)),
      if_neg (hne "DOWNLOAD" (by simp)), if_neg (hne "UPLOAD" (by simp))]
  exact ⟨⟨hcall, by rw [hcall]; rfl⟩, rfl, rfl, rfl⟩

/-- Witness for `C7_amended`: the unknown command `PING`. -/
theorem C7_witness :
    (pyUpper ((pySplitSpace "PING").getD 0 "") ∉
      (["ECHO", "TIME", "LIST", "CLOSE", "DOWNLOAD", "UPLOAD"] : List String)) ∧
    processCommandBlockingM (fun _ => "d") "now" [] none "PING" =
      .replies ["ERROR: Unknown command"] :=
  ⟨by decide, (C7_amended (fun _ => "d") "now" [] none "PING" (by decide)).1.1⟩

/-- Claim C8: a dispatch turn of the event-loop engine rewrites only the
addressed connection's `ClientState` (`lookupClient_engineDispatch`), so
when N fresh connections with distinct socket ids each issue `ECHO` with
their own text, each connection's outbound buffer afterwards holds exactly
its own text — whatever the other connections sent; and in the threaded
server each session's `ECHO` reply is computed from its own line alone and
equals its own text. -/
theorem C8 (digest : List Nat → String) (now : String) (files : List String)
    (lookupFile : String → Option (List Nat)) (ids : List Nat) (texts : List String)
    (hnd : ids.Nodup) (hlen : ids.length = texts.length) :
    (∀ k (hk : k < ids.length),
      lookupClient (runEchoSessions digest now files lookupFile ids texts) (ids.get ⟨k, hk⟩) =
        some { initialCState with send_buffer := (texts.getD k "").data ++ ['\n'] }) ∧
    (∀ t : String, processCommandBlockingM digest now files none ("ECHO " ++ t) =
      .replies [t]) := by
  constructor
  · intro k hk
    have h := foldEcho_lookup digest now files lookupFile ids texts
      (ids.map (fun i => (i, initialCState))) hnd hlen
      (fun i hi => lookupClient_map_initial ids i hi) k hk
    have hstep : (processAsyncCommandM digest now files lookupFile initialCState
        ("ECHO " ++ texts.getD k "")).1 =
        { initialCState with send_buffer := (texts.getD k "").data ++ ['\n'] } := by
      have he : processAsyncCommandM digest now files lookupFile initialCState
          ("ECHO " ++ texts.getD k "") =
          ({ initialCState with
              send_buffer := [] ++ (texts.getD k "").data ++ ['\n'] }, none) := rfl
      rw [he]
      simp
    rw [hstep] at h
    exact h
  · intro t
    have h1 : processCommandBlockingM digest now files none ("ECHO " ++ t) =
        .replies [pyJoin " " (pySplitSpace t)] := rfl
    rw [h1, pyJoin_pySplitSpace]

/-- Witness for `C8`: two sessions, ids 1 and 2, texts `"a"` and `"b"`;
session 1's buffer holds exactly `"a\n"`. -/
theorem C8_witness :
    ([1, 2] : List Nat).Nodup ∧
    lookupClient (runEchoSessions (fun _ => "d") "now" [] (fun _ => none) [1, 2] ["a", "b"]) 1 =
      some { initialCState with send_buffer := ['a', '\n'] } :=
  ⟨by decide,
    (C8 (fun _ => "d") "now" [] (fun _ => none) [1, 2] ["a", "b"] (by decide) (by decide)).1 0
      (by decide)⟩

/-- Claim C9: a zero-byte transfer in the cited handlers exchanges no raw
bytes and still produces its completion message: `receiveFileStream` with
`remaining = 0` touches the file, consumes nothing and replies
`UPLOAD COMPLETE`; `sendFileStream` on an empty file streams no chunk; the
client's upload loop streams nothing when `totalSize = 0`; the client's
download body writes an empty local file with zero raw bytes read; and the
download negotiation at offset 0 ends in the success message `OK`. -/
theorem C9 (stored : Option (List Nat)) (chunks : List (List Nat)) (localBytes : List Nat)
    (cur : Nat) (digest : List Nat → String) (fileBytes : List Nat) (chk : String) :
    receiveFileStreamM stored chunks 0 = some (touchFile stored, "UPLOAD COMPLETE", 0) ∧
    sendFileStreamM [] cur = [] ∧
    clientUploadRawChunks fileBytes cur 0 = [] ∧
    clientDownloadBody 0 cur localBytes chunks = some ([], 0) ∧
    serverDownloadOffsetReply digest fileBytes 0 chk = "OK" := by
  refine ⟨rfl, ?_, rfl, rfl, ?_⟩
  · show chunksOf DISK_CHUNK (([] : List Nat).drop cur) = []
    rw [List.drop_nil]
    rfl
  · unfold serverDownloadOffsetReply
    rw [if_neg (fun hc => lt_irrefl (0 : Int) hc.1)]

/-- Claim C10: in all three dispatchers the handler is chosen from the
uppercased first space-separated token alone — two lines whose first tokens
agree after uppercasing select the same handler — and concretely `upload`,
`Upload` and `UPLOAD` all select the upload handler. -/
theorem C10 (l1 l2 : String)
    (h : pyUpper ((pySplitSpace l1).getD 0 "") = pyUpper ((pySplitSpace l2).getD 0 "")) :
    (dispatchBlocking l1 = dispatchBlocking l2 ∧ dispatchAsync l1 = dispatchAsync l2 ∧
      dispatchClient l1 = dispatchClient l2) ∧
    (dispatchBlocking "upload x 1" = BlockingHandler.upload ∧
      dispatchBlocking "Upload x 1" = BlockingHandler.upload ∧
      dispatchBlocking "UPLOAD x 1" = BlockingHandler.upload ∧
      dispatchAsync "upload x 1" = AsyncHandler.upload ∧
      dispatchClient "upload x 1" = ClientHandler.upload) :=
  ⟨⟨congrArg selectBlockingHandler h, congrArg selectAsyncHandler h,
      congrArg selectClientHandler h⟩,
    by decide, by decide, by decide, by decide, by decide⟩

/-- Witness for `C10`: `upload x 1` and `UPLOAD x 1` share an uppercased
first token and select the same handler. -/
theorem C10_witness :
    (pyUpper ((pySplitSpace "upload x 1").getD 0 "") =
      pyUpper ((pySplitSpace "UPLOAD x 1").getD 0 "")) ∧
    dispatchBlocking "upload x 1" = dispatchBlocking "UPLOAD x 1" :=
  ⟨by decide, (C10 "upload x 1" "UPLOAD x 1" (by decide)).1.1⟩
